import Mathlib

/-!
Verification of the consolidation pipeline of `src/app.py`
(City Nature Challenge email consolidator).

The embedding models:
* `clean_email` (app.py lines 60-67): Python `str(x).strip().lower()`
  followed by the `'@' in email` test.  Cells are `Option String`:
  `none` models a missing value (pandas `NaN`, for which `pd.isna` is
  true); string cells are modelled as Lean strings, `str` being the
  identity on them.  `.strip()` removes leading/trailing whitespace and
  `.lower()` lower-cases, modelled over ASCII via `Char.toLower` and
  `Char.isWhitespace`.
* `process_dataframes` (app.py lines 69-86): `pd.concat` followed by
  `apply(clean_email)` on the `Email` column, the `notna` filter and
  `drop_duplicates(subset=[Email], keep=first)`.  A `Row` is the
  `Email` cell together with the remaining columns as an association
  list (`payload`); a dataframe is a `List Row`.
* a column-level variant `Frame`/`process_dataframes_frames` that also
  models `pd.concat`'s column union and the `KeyError` raised by
  `combined_df[Email]` when no source has an `Email` column.
* the country-column dispatch of `main` (app.py lines 149-170, 186) and
  the roster-store update of `main` (app.py lines 126-130).
-/

namespace CNC

/-- List-level model of Python `str.strip`: drop leading whitespace, then
drop trailing whitespace (via reverse). -/
def stripList (l : List Char) : List Char :=
  ((l.dropWhile Char.isWhitespace).reverse.dropWhile Char.isWhitespace).reverse

/-- Model of Python `str.strip()` on a string value. -/
def pyStrip (s : String) : String :=
  ⟨stripList s.data⟩

/-- Model of Python `str.lower()` (ASCII case mapping). -/
def pyLower (s : String) : String :=
  ⟨s.data.map Char.toLower⟩

/-- Model of `clean_email` (app.py lines 60-67):
`if pd.isna(email): return None`; `email = str(email).strip().lower()`;
`return email if '@' in email else None`. -/
def clean_email : Option String → Option String
  | none => none
  | some s =>
    if (pyLower (pyStrip s)).data.contains '@' then some (pyLower (pyStrip s))
    else none

/-- One row of a dataframe that has an `Email` column: the `Email` cell
plus the remaining columns as (column name, cell) pairs. -/
structure Row where
  email : Option String
  payload : List (String × Option String)
deriving DecidableEq, Repr

/-- Application of `clean_email` to the `Email` column of one row
(app.py line 78). -/
def cleanRow (r : Row) : Row :=
  { r with email := clean_email r.email }

/-- Model of `drop_duplicates(subset=[Email], keep=first)` (app.py
line 84): keep a row iff its `Email` value has not been seen before. -/
def dropDupAux (seen : List (Option String)) : List Row → List Row
  | [] => []
  | r :: rs =>
    if r.email ∈ seen then dropDupAux seen rs
    else r :: dropDupAux (r.email :: seen) rs

/-- Entry point of the duplicate removal (empty `seen` set). -/
def drop_duplicates (rows : List Row) : List Row :=
  dropDupAux [] rows

/-- Model of `process_dataframes` (app.py lines 69-86) over dataframes
that carry an `Email` column: `if not dfs: return None`, `pd.concat`
(row concatenation), `clean_email` on the `Email` column, the
`notna()` filter, then `drop_duplicates(subset=[Email], keep=first)`. -/
def process_dataframes (dfs : List (List Row)) : Option (List Row) :=
  if dfs.isEmpty then none
  else
    some (drop_duplicates
      (((dfs.flatten).map cleanRow).filter (fun r => r.email.isSome)))

/-- Boolean test that `pat` is an initial segment of the second list. -/
def startsWith : List Char → List Char → Bool
  | [], _ => true
  | _ :: _, [] => false
  | a :: pat, b :: l => a == b && startsWith pat l

/-- Boolean substring test over character lists, modelling Python's
`pat in s` on strings. -/
def hasSubList (pat : List Char) : List Char → Bool
  | [] => pat.isEmpty
  | c :: rest => startsWith pat (c :: rest) || hasSubList pat rest

/-- Model of Python `pat in s` for strings. -/
def strContains (s pat : String) : Bool :=
  hasSubList pat.data s.data

/-- Column-level model of a pandas dataframe: a column schema and rows of
cells aligned with it. -/
structure Frame where
  cols : List String
  rows : List (List (Option String))
deriving DecidableEq, Repr

/-- Column union of `pd.concat` (app.py line 75): columns in order of
first appearance across the frames. -/
def combinedCols (fs : List Frame) : List String :=
  fs.foldl (fun acc f => acc ++ f.cols.filter (fun c => !acc.contains c)) []

/-- Realign one row of a source frame to the combined schema; columns the
source lacks become missing values (`NaN`). -/
def alignRow (cols fcols : List String) (row : List (Option String)) :
    List (Option String) :=
  cols.map (fun c =>
    match fcols.findIdx? (fun d => d == c) with
    | some i => row.getD i none
    | none => none)

/-- Model of `pd.concat(dfs, ignore_index=True)` (app.py line 75) at the
column level. -/
def concatFrames (fs : List Frame) : Frame :=
  ⟨combinedCols fs,
   (fs.map (fun f => f.rows.map (alignRow (combinedCols fs) f.cols))).flatten⟩

/-- Duplicate removal of app.py line 84 at the column level, keyed on the
cell at column index `i`. -/
def dropDupFrameAux (i : Nat) (seen : List (Option String)) :
    List (List (Option String)) → List (List (Option String))
  | [] => []
  | row :: rest =>
    if row.getD i none ∈ seen then dropDupFrameAux i seen rest
    else row :: dropDupFrameAux i (row.getD i none :: seen) rest

/-- Column-level model of `process_dataframes` (app.py lines 69-86).
`combined_df[Email]` raises a `KeyError` when the combined frame has no
`Email` column; the error branch models that uncaught exception.  The
Python function returns `None` for an empty argument list, modelled as
`Except.ok none`. -/
def process_dataframes_frames (fs : List Frame) :
    Except String (Option Frame) :=
  if fs.isEmpty then .ok none
  else
    match (concatFrames fs).cols.findIdx? (fun c => c == "Email") with
    | none => .error "KeyError: Email"
    | some i =>
      .ok (some ⟨(concatFrames fs).cols,
        dropDupFrameAux i []
          (((concatFrames fs).rows.map
              (fun row => row.set i (clean_email (row.getD i none)))).filter
            (fun row => (row.getD i none).isSome))⟩)

/-- The fixed country column name of app.py line 150. -/
def COUNTRY_COL : String :=
  "Country/Region Name: Please choose your country/region from the list below. If your project takes place in multiple countries, please select the country with the largest land area."

/-- The country column the app uses, modelling the dispatch
`if COUNTRY_COL in result_df.columns` of app.py lines 158, 166 and 186:
exactly the literal `COUNTRY_COL` when present, otherwise no country
column (filter sentinel `All`, metric `N/A`). -/
def countryColumn (cols : List String) : Option String :=
  if cols.contains COUNTRY_COL then some COUNTRY_COL else none

/-- Modelled from the spec (§4.4), for comparison with `countryColumn`:
the first column (in column order) whose name contains the substring
`Country`. -/
def countryColumnSpec (cols : List String) : Option String :=
  cols.find? (fun c => strContains c "Country")

/-- Model of the roster-store update of app.py lines 126-130: the new
result replaces `st.session_state.result_df` only when it is neither
`None` nor empty; otherwise the previous stored roster is kept. -/
def store_result (old : Option (List Row)) (res : Option (List Row)) :
    Option (List Row) :=
  match res with
  | some out => if out.isEmpty then old else some out
  | none => old

example : clean_email none = none := rfl
example : clean_email (some "  Jo@X.COM ") = some "jo@x.com" := by decide
example : clean_email (some "not-an-email") = none := by decide
example :
    process_dataframes [[⟨some "A@b", []⟩, ⟨some "a@b ", [("k", some "v")]⟩]]
      = some [⟨some "a@b", []⟩] := by decide
example : strContains "My Country Here" "Country" = true := by decide
example : strContains "Country" "Country" = true := by decide
example : strContains "County" "Country" = false := by decide
example :
    process_dataframes_frames [⟨["Name"], [[some "Jo"]]⟩]
      = .error "KeyError: Email" := by rfl
example :
    process_dataframes_frames [⟨["Email"], [[some "A@b"]]⟩]
      = .ok (some ⟨["Email"], [[some "a@b"]]⟩) := by rfl
example : countryColumn ["Country"] = none := by decide
example : countryColumnSpec ["x", "My Country"] = some "My Country" := by decide

/-! Lemmas about the ASCII case map and whitespace trimming. -/

/-- Lower-casing a character does not change whether it is whitespace. -/
theorem toLower_isWhitespace (c : Char) :
    c.toLower.isWhitespace = c.isWhitespace := by
  by_cases h : c.toNat ≥ 65 ∧ c.toNat ≤ 90
  · rw [← Char.ofNat_toNat c]
    obtain ⟨k, hk1, hk2, hkeq⟩ : ∃ k, 65 ≤ k ∧ k ≤ 90 ∧ c.toNat = k :=
      ⟨c.toNat, h.1, h.2, rfl⟩
    rw [hkeq]
    interval_cases k <;> decide
  · have hc : c.toLower = c := by
      unfold Char.toLower
      exact if_neg h
    rw [hc]

/-- The ASCII lower-casing map is idempotent on characters. -/
theorem toLower_toLower (c : Char) : c.toLower.toLower = c.toLower := by
  by_cases h : c.toNat ≥ 65 ∧ c.toNat ≤ 90
  · rw [← Char.ofNat_toNat c]
    obtain ⟨k, hk1, hk2, hkeq⟩ : ∃ k, 65 ≤ k ∧ k ≤ 90 ∧ c.toNat = k :=
      ⟨c.toNat, h.1, h.2, rfl⟩
    rw [hkeq]
    interval_cases k <;> decide
  · have hc : c.toLower = c := by
      unfold Char.toLower
      exact if_neg h
    rw [hc, hc]

/-- The head of a `dropWhile` result fails the dropped predicate. -/
theorem dropWhile_head_false {α : Type} {p : α → Bool} :
    ∀ {l : List α} {a : α}, (l.dropWhile p).head? = some a → p a = false := by
  intro l
  induction l with
  | nil => intro a h; simp [List.dropWhile] at h
  | cons b bs ih =>
    intro a h
    by_cases hb : p b
    · rw [List.dropWhile_cons, if_pos hb] at h
      exact ih h
    · rw [List.dropWhile_cons, if_neg hb] at h
      simp only [List.head?_cons, Option.some.injEq] at h
      subst h
      simpa using hb

/-- A list whose head fails `p` is unchanged by `dropWhile p`. -/
theorem dropWhile_eq_self {α : Type} {p : α → Bool} {l : List α}
    (h : ∀ a, l.head? = some a → p a = false) : l.dropWhile p = l := by
  cases l with
  | nil => rfl
  | cons b bs =>
    rw [List.dropWhile_cons, if_neg]
    simp [h b rfl]

/-- Dropping a prefix twice is the same as dropping it once. -/
theorem dropWhile_dropWhile {α : Type} {p : α → Bool} (l : List α) :
    (l.dropWhile p).dropWhile p = l.dropWhile p :=
  dropWhile_eq_self fun _ ha => dropWhile_head_false ha

/-- `dropWhile` commutes with a map that preserves the predicate. -/
theorem dropWhile_map {α : Type} {f : α → α} {p : α → Bool}
    (hf : ∀ a, p (f a) = p a) (l : List α) :
    (l.map f).dropWhile p = (l.dropWhile p).map f := by
  induction l with
  | nil => rfl
  | cons b bs ih =>
    rw [List.map_cons, List.dropWhile_cons, List.dropWhile_cons, hf b]
    by_cases hb : p b
    · rw [if_pos hb, if_pos hb, ih]
    · rw [if_neg hb, if_neg hb, List.map_cons]

/-- The `dropWhile` result is a suffix of the original list. -/
theorem exists_append_dropWhile {α : Type} {p : α → Bool} (l : List α) :
    ∃ t, t ++ l.dropWhile p = l := by
  induction l with
  | nil => exact ⟨[], rfl⟩
  | cons b bs ih =>
    by_cases hb : p b
    · obtain ⟨t, ht⟩ := ih
      refine ⟨b :: t, ?_⟩
      rw [List.dropWhile_cons, if_pos hb, List.cons_append, ht]
    · refine ⟨[], ?_⟩
      rw [List.dropWhile_cons, if_neg hb]
      rfl

/-- Trimming both ends is idempotent. -/
theorem stripList_stripList (l : List Char) :
    stripList (stripList l) = stripList l := by
  have hA : (stripList l).dropWhile Char.isWhitespace = stripList l := by
    cases hv :
        (l.dropWhile Char.isWhitespace).reverse.dropWhile Char.isWhitespace with
    | nil =>
      unfold stripList
      rw [hv]
      rfl
    | cons c v =>
      apply dropWhile_eq_self
      intro a ha
      obtain ⟨t, ht⟩ :=
        exists_append_dropWhile (p := Char.isWhitespace)
          (l.dropWhile Char.isWhitespace).reverse
      rw [hv] at ht
      have hrev :
          (c :: v).reverse ++ t.reverse = l.dropWhile Char.isWhitespace := by
        have := congrArg List.reverse ht
        rwa [List.reverse_append, List.reverse_reverse] at this
      have hsl : stripList l = (c :: v).reverse := by
        unfold stripList
        rw [hv]
      rw [hsl] at ha
      have hu : (l.dropWhile Char.isWhitespace).head? = some a := by
        rw [← hrev, List.head?_append, ha]
        rfl
      exact dropWhile_head_false hu
  show (((stripList l).dropWhile Char.isWhitespace).reverse.dropWhile
      Char.isWhitespace).reverse = stripList l
  rw [hA]
  conv_lhs =>
    rw [show stripList l =
      ((l.dropWhile Char.isWhitespace).reverse.dropWhile
        Char.isWhitespace).reverse from rfl]
  rw [List.reverse_reverse, dropWhile_dropWhile]
  rfl

/-- Trimming commutes with the ASCII lower-casing map. -/
theorem stripList_map_toLower (l : List Char) :
    stripList (l.map Char.toLower) = (stripList l).map Char.toLower := by
  unfold stripList
  rw [dropWhile_map toLower_isWhitespace, ← List.map_reverse,
    dropWhile_map toLower_isWhitespace, ← List.map_reverse]

/-- Mapping the ASCII lower-casing twice equals mapping it once. -/
theorem map_toLower_idem (l : List Char) :
    (l.map Char.toLower).map Char.toLower = l.map Char.toLower := by
  induction l with
  | nil => rfl
  | cons b bs ih =>
    simp only [List.map_cons, ih, toLower_toLower]

/-- Python `strip` is idempotent. -/
theorem pyStrip_pyStrip (s : String) : pyStrip (pyStrip s) = pyStrip s :=
  congrArg String.mk (stripList_stripList s.data)

/-- Python `lower` is idempotent. -/
theorem pyLower_pyLower (s : String) : pyLower (pyLower s) = pyLower s :=
  congrArg String.mk (map_toLower_idem s.data)

/-- Python `strip` and `lower` commute. -/
theorem pyStrip_pyLower (s : String) : pyStrip (pyLower s) = pyLower (pyStrip s) :=
  congrArg String.mk (stripList_map_toLower s.data)

/-- The normalization `lower (strip s)` is idempotent. -/
theorem normalize_idem (s : String) :
    pyLower (pyStrip (pyLower (pyStrip s))) = pyLower (pyStrip s) := by
  rw [pyStrip_pyLower, pyStrip_pyStrip, pyLower_pyLower]

/-- Inversion for a successful `clean_email`: the produced key contains
`@` and is already in normalized form. -/
theorem clean_email_some_inv {c : Option String} {e : String}
    (h : clean_email c = some e) :
    '@' ∈ e.data ∧ pyLower (pyStrip e) = e := by
  match c with
  | none => simp [clean_email] at h
  | some s =>
    simp only [clean_email] at h
    split at h
    · rename_i hc
      injection h with h
      subst h
      exact ⟨List.elem_iff.mp hc, normalize_idem s⟩
    · cases h

/-- A key produced by `clean_email` is a fixed point of `clean_email`. -/
theorem clean_email_fixed {c : Option String} {e : String}
    (h : clean_email c = some e) : clean_email (some e) = some e := by
  obtain ⟨hat, hfix⟩ := clean_email_some_inv h
  simp only [clean_email, hfix]
  rw [if_pos (List.elem_iff.mpr hat)]

/-! Lemmas about the duplicate removal of app.py line 84. -/

/-- Rows surviving duplicate removal come from the input. -/
theorem mem_of_mem_dropDupAux {r : Row} :
    ∀ (rows : List Row) (seen : List (Option String)),
      r ∈ dropDupAux seen rows → r ∈ rows
  | [], _, h => by simp [dropDupAux] at h
  | a :: rs, seen, h => by
    simp only [dropDupAux] at h
    by_cases ha : a.email ∈ seen
    · rw [if_pos ha] at h
      exact List.mem_cons_of_mem _ (mem_of_mem_dropDupAux rs seen h)
    · rw [if_neg ha] at h
      rcases List.mem_cons.mp h with h1 | h1
      · exact h1 ▸ List.mem_cons_self _ _
      · exact List.mem_cons_of_mem _ (mem_of_mem_dropDupAux rs _ h1)

/-- A row surviving duplicate removal was not previously seen, and it is
the first row of the input carrying its email value. -/
theorem find?_of_mem_dropDupAux {r : Row} :
    ∀ (rows : List Row) (seen : List (Option String)),
      r ∈ dropDupAux seen rows →
        r.email ∉ seen ∧
          rows.find? (fun x => x.email == r.email) = some r
  | [], _, h => by simp [dropDupAux] at h
  | a :: rs, seen, h => by
    simp only [dropDupAux] at h
    by_cases ha : a.email ∈ seen
    · rw [if_pos ha] at h
      obtain ⟨hns, hf⟩ := find?_of_mem_dropDupAux rs seen h
      have hne : ¬(a.email == r.email) = true := by
        simp only [beq_iff_eq]
        intro he
        exact hns (he ▸ ha)
      exact ⟨hns, by
        rw [List.find?_cons_of_neg (p := fun x : Row => x.email == r.email) _ hne, hf]⟩
    · rw [if_neg ha] at h
      rcases List.mem_cons.mp h with h1 | h1
      · cases h1
        exact ⟨ha, by
          rw [List.find?_cons_of_pos (p := fun x : Row => x.email == r.email) _
            (by simp)]⟩
      · obtain ⟨hns, hf⟩ := find?_of_mem_dropDupAux rs _ h1
        have hra : r.email ≠ a.email := fun he =>
          hns (by rw [he]; exact List.mem_cons_self _ _)
        refine ⟨fun hin => hns (List.mem_cons_of_mem _ hin), ?_⟩
        have hne : ¬(a.email == r.email) = true := by
          simp only [beq_iff_eq]
          exact fun he => hra he.symm
        rw [List.find?_cons_of_neg (p := fun x : Row => x.email == r.email) _ hne,
          hf]

/-- After duplicate removal, no two rows share an email value. -/
theorem pairwise_dropDupAux :
    ∀ (rows : List Row) (seen : List (Option String)),
      (dropDupAux seen rows).Pairwise (fun a b => a.email ≠ b.email)
  | [], _ => by simp [dropDupAux]
  | a :: rs, seen => by
    simp only [dropDupAux]
    by_cases ha : a.email ∈ seen
    · rw [if_pos ha]
      exact pairwise_dropDupAux rs seen
    · rw [if_neg ha]
      refine List.Pairwise.cons ?_ (pairwise_dropDupAux rs _)
      intro b hb
      have hb2 := (find?_of_mem_dropDupAux rs _ hb).1
      intro he
      exact hb2 (by rw [← he]; exact List.mem_cons_self _ _)

/-- Inversion of `process_dataframes` on a successful run. -/
theorem process_dataframes_eq_some {dfs : List (List Row)} {out : List Row}
    (h : process_dataframes dfs = some out) :
    out =
      dropDupAux []
        ((dfs.flatten.map cleanRow).filter (fun r => r.email.isSome)) := by
  unfold process_dataframes at h
  split at h
  · cases h
  · injection h with h
    exact h.symm

/-- C1: for every list of input tables, every record in the roster
returned by `process_dataframes` has a non-`None` email containing `@`,
and no two roster records share the same normalized email value. -/
theorem C1_roster_emails_valid_unique (dfs : List (List Row)) (out : List Row)
    (h : process_dataframes dfs = some out) :
    (∀ r ∈ out, ∃ e, r.email = some e ∧ '@' ∈ e.data) ∧
      out.Pairwise (fun a b => a.email ≠ b.email) := by
  rw [process_dataframes_eq_some h]
  constructor
  · intro r hr
    have hmem := mem_of_mem_dropDupAux _ _ hr
    rw [List.mem_filter] at hmem
    obtain ⟨hmap, hsome⟩ := hmem
    obtain ⟨r0, _, hr0⟩ := List.mem_map.mp hmap
    obtain ⟨e, he⟩ := Option.isSome_iff_exists.mp hsome
    refine ⟨e, he, ?_⟩
    have hce : clean_email r0.email = some e := by
      rw [← he, ← hr0]
      rfl
    exact (clean_email_some_inv hce).1
  · exact pairwise_dropDupAux _ []

/-- Witness for C1 at a concrete two-table input with a duplicate. -/
theorem C1_roster_emails_valid_unique_witness :
    (∀ r ∈ [Row.mk (some "jo@x.com") [], Row.mk (some "sam@y.com") []],
        ∃ e, r.email = some e ∧ '@' ∈ e.data) ∧
      List.Pairwise (fun a b : Row => a.email ≠ b.email)
        [Row.mk (some "jo@x.com") [], Row.mk (some "sam@y.com") []] :=
  C1_roster_emails_valid_unique
    [[⟨some "JO@X.COM", []⟩], [⟨some "jo@x.com", []⟩, ⟨some "Sam@Y.com ", []⟩]]
    [⟨some "jo@x.com", []⟩, ⟨some "sam@y.com", []⟩] (by decide)

/-- C2: `clean_email` returns `none` on a missing value; otherwise it
strips surrounding whitespace and lower-cases the value, returning that
string exactly when it contains the character `@` and `none` otherwise. -/
theorem C2_clean_email_behaviour (s : String) :
    clean_email none = none ∧
      clean_email (some s) =
        (if '@' ∈ (pyLower (pyStrip s)).data then some (pyLower (pyStrip s))
         else none) := by
  refine ⟨rfl, ?_⟩
  simp only [clean_email]
  by_cases h : '@' ∈ (pyLower (pyStrip s)).data
  · rw [if_pos (List.elem_iff.mpr h), if_pos h]
  · rw [if_neg (fun hc => h (List.elem_iff.mp hc)), if_neg h]

/-- C10: every `Email` value in the roster returned by
`process_dataframes` is a fixed point of `clean_email`. -/
theorem C10_roster_email_fixed_point (dfs : List (List Row)) (out : List Row)
    (r : Row) (e : String) (h : process_dataframes dfs = some out)
    (hr : r ∈ out) (he : r.email = some e) :
    clean_email (some e) = some e := by
  rw [process_dataframes_eq_some h] at hr
  have hmem := mem_of_mem_dropDupAux _ _ hr
  rw [List.mem_filter] at hmem
  obtain ⟨hmap, _⟩ := hmem
  obtain ⟨r0, _, hr0⟩ := List.mem_map.mp hmap
  have hce : clean_email r0.email = some e := by
    rw [← he, ← hr0]
    rfl
  exact clean_email_fixed hce

/-- Witness for C10 on a concrete upper-case input. -/
theorem C10_roster_email_fixed_point_witness :
    clean_email (some "jo@x.com") = some "jo@x.com" :=
  C10_roster_email_fixed_point [[⟨some "JO@X.COM", []⟩]]
    [⟨some "jo@x.com", []⟩] ⟨some "jo@x.com", []⟩ "jo@x.com"
    (by decide) (by decide) rfl

/-- C3 counterexample: two records share the email `a@x.org`; the second
carries `source_tag = BothSources`, yet the roster keeps the first
(`IndividualOnly`) record.  The claimed preference for `BothSources`
records does not exist in the code. -/
theorem C3_counterexample :
    process_dataframes
        [[⟨some "a@x.org", [("source_tag", some "IndividualOnly")]⟩,
          ⟨some "a@x.org", [("source_tag", some "BothSources")]⟩]]
      = some [⟨some "a@x.org", [("source_tag", some "IndividualOnly")]⟩] ∧
    (⟨some "a@x.org", [("source_tag", some "BothSources")]⟩ : Row)
      ∉ [(⟨some "a@x.org", [("source_tag", some "IndividualOnly")]⟩ : Row)] := by
  constructor
  · decide
  · decide

/-- C3 amended: among records sharing an email key, the roster keeps the
first-encountered record in concatenated source order, regardless of any
tag stored in its fields. -/
theorem C3_kept_is_first_occurrence (dfs : List (List Row)) (out : List Row)
    (h : process_dataframes dfs = some out) (r : Row) (hr : r ∈ out) :
    ((dfs.flatten.map cleanRow).filter (fun x => x.email.isSome)).find?
      (fun x => x.email == r.email) = some r := by
  rw [process_dataframes_eq_some h] at hr
  exact (find?_of_mem_dropDupAux _ _ hr).2

/-- Witness for C3 amended at the counterexample input. -/
theorem C3_kept_is_first_occurrence_witness :
    (([[⟨some "a@x.org", [("source_tag", some "IndividualOnly")]⟩,
        ⟨some "a@x.org", [("source_tag", some "BothSources")]⟩]].flatten.map
          cleanRow).filter (fun x => x.email.isSome)).find?
      (fun x => x.email ==
        (Row.mk (some "a@x.org") [("source_tag", some "IndividualOnly")]).email)
      = some ⟨some "a@x.org", [("source_tag", some "IndividualOnly")]⟩ :=
  C3_kept_is_first_occurrence
    [[⟨some "a@x.org", [("source_tag", some "IndividualOnly")]⟩,
      ⟨some "a@x.org", [("source_tag", some "BothSources")]⟩]]
    [⟨some "a@x.org", [("source_tag", some "IndividualOnly")]⟩]
    (by decide) _ (by decide)

/-- C4 counterexample: the email `a@x.org` occurs in the key-sets of two
distinct sources, yet the final record keeps its original
`IndividualOnly` field; no `BothSources` tag is ever produced. -/
theorem C4_counterexample :
    process_dataframes
        [[⟨some "a@x.org", [("source_tag", some "IndividualOnly")]⟩],
         [⟨some "a@x.org", [("source_tag", some "CityOnly")]⟩]]
      = some [⟨some "a@x.org", [("source_tag", some "IndividualOnly")]⟩] ∧
    ([("source_tag", some "IndividualOnly")].lookup "source_tag"
        ≠ some (some "BothSources")) := by
  constructor
  · decide
  · decide

/-- C4 amended: `process_dataframes` computes no provenance tag: every
roster record is the cleaned image of one input record, all non-Email
fields unchanged. -/
theorem C4_no_provenance_tagging (dfs : List (List Row)) (out : List Row)
    (h : process_dataframes dfs = some out) (r : Row) (hr : r ∈ out) :
    ∃ r0 ∈ dfs.flatten, r = cleanRow r0 ∧ r.payload = r0.payload := by
  rw [process_dataframes_eq_some h] at hr
  have hmem := mem_of_mem_dropDupAux _ _ hr
  rw [List.mem_filter] at hmem
  obtain ⟨hmap, _⟩ := hmem
  obtain ⟨r0, hr0mem, hr0⟩ := List.mem_map.mp hmap
  refine ⟨r0, hr0mem, hr0.symm, ?_⟩
  rw [← hr0]
  rfl

/-- Witness for C4 amended at the counterexample input. -/
theorem C4_no_provenance_tagging_witness :
    ∃ r0 ∈ [[Row.mk (some "a@x.org") [("source_tag", some "IndividualOnly")]],
            [Row.mk (some "a@x.org") [("source_tag", some "CityOnly")]]].flatten,
      (Row.mk (some "a@x.org") [("source_tag", some "IndividualOnly")])
          = cleanRow r0 ∧
        (Row.mk (some "a@x.org") [("source_tag", some "IndividualOnly")]).payload
          = r0.payload :=
  C4_no_provenance_tagging
    [[⟨some "a@x.org", [("source_tag", some "IndividualOnly")]⟩],
     [⟨some "a@x.org", [("source_tag", some "CityOnly")]⟩]]
    [⟨some "a@x.org", [("source_tag", some "IndividualOnly")]⟩]
    (by decide) _ (by decide)

/-- C5 counterexample: on an empty input set `process_dataframes` returns
the absent result `None`, not an empty roster. -/
theorem C5_counterexample :
    process_dataframes ([] : List (List Row)) = none := rfl

/-- C5 amended: an empty source list yields the absent result `None`; a
nonempty source list whose records all fail email normalization yields
the empty roster, but the `main` store then keeps the previous roster
instead of storing the empty one. -/
theorem C5_empty_input_behaviour (dfs : List (List Row))
    (old : Option (List Row)) (hne : dfs ≠ [])
    (hall : ∀ r ∈ dfs.flatten, clean_email r.email = none) :
    process_dataframes ([] : List (List Row)) = none ∧
      process_dataframes dfs = some [] ∧
      store_result old (some []) = old := by
  refine ⟨rfl, ?_, rfl⟩
  unfold process_dataframes
  rw [if_neg (by simpa using hne)]
  have hfil :
      (dfs.flatten.map cleanRow).filter (fun r => r.email.isSome) = [] := by
    rw [List.filter_eq_nil_iff]
    intro a ha
    obtain ⟨r0, hr0mem, hr0⟩ := List.mem_map.mp ha
    rw [← hr0]
    simp [cleanRow, hall r0 hr0mem]
  rw [show drop_duplicates
      ((dfs.flatten.map cleanRow).filter (fun r => r.email.isSome))
      = dropDupAux [] ((dfs.flatten.map cleanRow).filter
        (fun r => r.email.isSome)) from rfl, hfil]
  rfl

/-- Witness for C5 amended with one source of one invalid record. -/
theorem C5_empty_input_behaviour_witness :
    process_dataframes ([] : List (List Row)) = none ∧
      process_dataframes [[⟨some "not-an-email", []⟩]] = some [] ∧
      store_result (some [⟨some "a@b", []⟩]) (some [])
        = some [⟨some "a@b", []⟩] :=
  C5_empty_input_behaviour [[⟨some "not-an-email", []⟩]]
    (some [⟨some "a@b", []⟩]) (by decide) (by decide)

/-- C8 counterexample: a single-row source whose only (first) row holds a
valid email: the row is kept in the roster, not discarded as a malformed
header, and no slot extraction takes place. -/
theorem C8_counterexample :
    process_dataframes [[⟨some "ann@x.org", [("Full Name", some "Ann")]⟩]]
      = some [⟨some "ann@x.org", [("Full Name", some "Ann")]⟩] := by
  decide

/-- C8 amended: there is no repeated-group extraction: every row,
including the first row of a source, is treated as a single candidate
record keyed by its `Email` cell, and a first row with a valid email
heads the roster. -/
theorem C8_first_row_is_processed (r : Row) (rs : List Row)
    (dfs : List (List Row)) (e : String)
    (he : clean_email r.email = some e) :
    ∃ out, process_dataframes ((r :: rs) :: dfs) = some out ∧
      out.head? = some (cleanRow r) := by
  refine ⟨_, rfl, ?_⟩
  have h1 : (((r :: rs) :: dfs).flatten.map cleanRow).filter
        (fun x => x.email.isSome)
      = cleanRow r ::
        ((rs ++ dfs.flatten).map cleanRow).filter (fun x => x.email.isSome) := by
    show (cleanRow r :: (rs ++ dfs.flatten).map cleanRow).filter
        (fun x => x.email.isSome) = _
    rw [List.filter_cons_of_pos]
    show (clean_email r.email).isSome = true
    rw [he]
    rfl
  show (drop_duplicates ((((r :: rs) :: dfs).flatten.map cleanRow).filter
      (fun x => x.email.isSome))).head? = some (cleanRow r)
  rw [show drop_duplicates ((((r :: rs) :: dfs).flatten.map cleanRow).filter
      (fun x => x.email.isSome)) = dropDupAux []
        ((((r :: rs) :: dfs).flatten.map cleanRow).filter
          (fun x => x.email.isSome)) from rfl, h1]
  simp only [dropDupAux]
  rw [if_neg (by simp)]
  rfl

/-- Witness for C8 amended on the claim's `Ann` example slot. -/
theorem C8_first_row_is_processed_witness :
    ∃ out,
      process_dataframes [[⟨some " Ann@X.org", [("Full Name", some "Ann")]⟩]]
          = some out ∧
        out.head? = some (cleanRow ⟨some " Ann@X.org", [("Full Name", some "Ann")]⟩) :=
  C8_first_row_is_processed ⟨some " Ann@X.org", [("Full Name", some "Ann")]⟩
    [] [] "ann@x.org" (by decide)

/-- C6 counterexample: a single source with no `Email` column makes
`process_dataframes` raise an uncaught `KeyError` instead of degrading
gracefully. -/
theorem C6_counterexample :
    process_dataframes_frames [⟨["Name"], [[some "Jo"]]⟩]
      = .error "KeyError: Email" := rfl

/-- C6 amended: when no source contributes an `Email` column the pipeline
raises an uncaught `KeyError`; when the combined frame has an `Email`
column the pipeline completes without an exception. -/
theorem C6_missing_email_column_raises (fs : List Frame) (hne : fs ≠ []) :
    ("Email" ∉ combinedCols fs →
        process_dataframes_frames fs = .error "KeyError: Email") ∧
      ("Email" ∈ combinedCols fs →
        ∃ g, process_dataframes_frames fs = .ok (some g)) := by
  have hcols : (concatFrames fs).cols = combinedCols fs := rfl
  constructor
  · intro hmem
    unfold process_dataframes_frames
    rw [if_neg (by simpa using hne)]
    have hnone :
        (concatFrames fs).cols.findIdx? (fun c => c == "Email") = none := by
      rw [List.findIdx?_eq_none_iff]
      intro c hc
      rw [hcols] at hc
      have hcne : c ≠ "Email" := fun h => hmem (h ▸ hc)
      simpa using hcne
    rw [hnone]
  · intro hmem
    unfold process_dataframes_frames
    rw [if_neg (by simpa using hne)]
    have hsome :
        ∃ i, (concatFrames fs).cols.findIdx? (fun c => c == "Email")
          = some i := by
      rw [← Option.isSome_iff_exists, List.findIdx?_isSome, List.any_eq_true]
      refine ⟨"Email", ?_, by simp⟩
      rw [hcols]
      exact hmem
    obtain ⟨i, hi⟩ := hsome
    rw [hi]
    exact ⟨_, rfl⟩

/-- Witness for C6 amended: one frame without and one with `Email`. -/
theorem C6_missing_email_column_raises_witness :
    (process_dataframes_frames [⟨["Name"], [[some "Jo"]]⟩]
        = .error "KeyError: Email") ∧
      ∃ g, process_dataframes_frames [⟨["Email"], [[some "A@b"]]⟩]
        = .ok (some g) :=
  ⟨(C6_missing_email_column_raises [⟨["Name"], [[some "Jo"]]⟩]
      (by simp)).1 (by decide),
   (C6_missing_email_column_raises [⟨["Email"], [[some "A@b"]]⟩]
      (by simp)).2 (by decide)⟩

/-- C7 counterexample: the column name `Country` contains the substring
`Country`, so the claimed substring-based resolution would select it, yet
the app's exact-literal dispatch selects nothing. -/
theorem C7_counterexample :
    countryColumnSpec ["Country"] = some "Country" ∧
      countryColumn ["Country"] = none := by
  constructor
  · decide
  · decide

/-- C7 amended: the app matches the country column by the exact literal
`COUNTRY_COL` only: when no column name contains the substring `Country`
no country column is selected (and the code assigns no `Unknown` value
anywhere), and any selected column is exactly `COUNTRY_COL`. -/
theorem C7_exact_literal_country_column (cols : List String) :
    ((∀ c ∈ cols, strContains c "Country" = false) →
        countryColumn cols = none) ∧
      ∀ c, countryColumn cols = some c → c = COUNTRY_COL ∧ c ∈ cols := by
  constructor
  · intro hno
    unfold countryColumn
    rw [if_neg]
    intro hmem
    have h1 : strContains COUNTRY_COL "Country" = true := by decide
    rw [hno COUNTRY_COL (List.elem_iff.mp hmem)] at h1
    cases h1
  · intro c hc
    unfold countryColumn at hc
    by_cases hm : cols.contains COUNTRY_COL = true
    · rw [if_pos hm] at hc
      injection hc with hc
      subst hc
      exact ⟨rfl, List.elem_iff.mp hm⟩
    · rw [if_neg hm] at hc
      cases hc

set_option maxRecDepth 8192 in
/-- Witness for C7 amended at concrete column lists. -/
theorem C7_exact_literal_country_column_witness :
    countryColumn ["City Name"] = none ∧
      (COUNTRY_COL = COUNTRY_COL ∧ COUNTRY_COL ∈ [COUNTRY_COL]) :=
  ⟨(C7_exact_literal_country_column ["City Name"]).1 (by decide),
   (C7_exact_literal_country_column [COUNTRY_COL]).2 COUNTRY_COL (by decide)⟩

end CNC
